import Mathlib

/-!
Verification development for the step-resolution core of the
`founders-day` maintenance scripts, embedded from
`src/bmad_measure_phase.py`.

The script extracts Gherkin steps from feature files
(`extract_steps_from_features`), extracts step-definition patterns from
TypeScript sources (`extract_step_definitions`), matches each step
against every definition (`match_step_to_definition`) and classifies the
step as matched / unmatched / ambiguous (`generate_measure_report`).

Texts are modelled as `List Char`.  The regular-expression machinery the
script obtains from Python's `re` module is modelled by a small regex
AST with a Brzozowski-derivative matcher, together with a parser for the
fragment of Python regex syntax that the script's substitutions produce
(literal characters, escapes `\d` `\w` `\s`, character classes without
ranges, `.`, postfix `*` `+` `?` with optional lazy `?`, and Python's
rule that a `{...}` which is not a well-formed quantifier is literal
text; groups, alternation, anchors inside the body and counted repeats
are outside the modelled fragment and make the parser fail, which the
script's bare `except: pass` turns into "no match").  Since the script
wraps every constructed pattern as `re.match(f"^{pattern}$", text)` and
step texts never contain a newline (they come from a `(.+)` capture),
the wrapped match is exactly a full match of the body, which is what the
matcher below computes.
-/

namespace FoundersDay

/-- Python `str.strip()` whitespace (the default strip set). -/
def isPySpace (c : Char) : Bool :=
  c = ' ' || c = '\t' || c = '\n' || c = '\r' || c = '\x0b' || c = '\x0c'

/-- Python `str.strip()` on a character list. -/
def pyStrip (s : List Char) : List Char :=
  ((s.dropWhile isPySpace).reverse.dropWhile isPySpace).reverse

/-- Fuelled worker for `replaceAll`.  Scans left to right; whenever
`old` is a prefix of the remaining input it emits `new` and skips past
the occurrence, exactly as Python's `str.replace` does for a non-empty
`old`.  The fuel is only a termination device: `replaceAll` supplies
enough for the whole input. -/
def replaceAllF : Nat → List Char → List Char → List Char → List Char
  | _, [], _, _ => []
  | 0, s, _, _ => s
  | fuel + 1, c :: rest, old, new =>
    if old ≠ [] ∧ old.isPrefixOf (c :: rest) then
      new ++ replaceAllF fuel ((c :: rest).drop old.length) old new
    else
      c :: replaceAllF fuel rest old new

/-- Python `s.replace(old, new)` for non-empty `old`. -/
def replaceAll (s old new : List Char) : List Char :=
  replaceAllF s.length s old new

/-- The placeholder substitutions of `match_step_to_definition`
(lines 111-117): `{string}` then `{int}` then `{word}` are textually
replaced by their regex fragments.  Note the code substitutes `"[^"]*"`
for `{string}`, `\d+` (no sign) for `{int}` and `\w+` for `{word}`, and
performs no other rewriting and no escaping. -/
def pySubstitute (p : List Char) : List Char :=
  replaceAll
    (replaceAll
      (replaceAll p ("{string}").data ("\"[^\"]*\"").data)
      ("{int}").data ("\\d+").data)
    ("{word}").data ("\\w+").data

/-- Atoms of the modelled regex fragment: a literal character, the
escape classes `\d` `\w` `\s`, the any-character `.` (which excludes
newline), and a character class `[...]` / `[^...]` of plain members. -/
inductive RAtom : Type
  | lit (c : Char)
  | digitA
  | wordA
  | spaceA
  | anyA
  | cls (neg : Bool) (cs : List Char)
deriving DecidableEq, Repr

/-- Whether an atom accepts a character.  `\w` is modelled at its ASCII
core (letters, digits, underscore), which covers every text the claims
touch. -/
def amatch : RAtom → Char → Bool
  | .lit c, d => c = d
  | .digitA, d => d.isDigit
  | .wordA, d => d.isAlphanum || d = '_'
  | .spaceA, d => isPySpace d
  | .anyA, d => d ≠ '\n'
  | .cls neg cs, d => if neg then !(cs.contains d) else cs.contains d

/-- Regular expressions over `RAtom`. -/
inductive Regex : Type
  | fail
  | eps
  | atom (a : RAtom)
  | seq (r1 r2 : Regex)
  | alt (r1 r2 : Regex)
  | star (r : Regex)
deriving DecidableEq, Repr

/-- Whether a regex accepts the empty word. -/
def nullable : Regex → Bool
  | .fail => false
  | .eps => true
  | .atom _ => false
  | .seq r1 r2 => nullable r1 && nullable r2
  | .alt r1 r2 => nullable r1 || nullable r2
  | .star _ => true

/-- Smart sequencing, pruning the empty language and the empty word. -/
def mkSeq : Regex → Regex → Regex
  | .fail, _ => .fail
  | _, .fail => .fail
  | .eps, r => r
  | r, .eps => r
  | r1, r2 => .seq r1 r2

/-- Smart alternation, pruning the empty language. -/
def mkAlt : Regex → Regex → Regex
  | .fail, r => r
  | r, .fail => r
  | r1, r2 => .alt r1 r2

/-- Brzozowski derivative with respect to one character. -/
def deriv : Regex → Char → Regex
  | .fail, _ => .fail
  | .eps, _ => .fail
  | .atom a, c => if amatch a c then .eps else .fail
  | .seq r1 r2, c =>
    if nullable r1 then mkAlt (mkSeq (deriv r1 c) r2) (deriv r2 c)
    else mkSeq (deriv r1 c) r2
  | .alt r1 r2, c => mkAlt (deriv r1 c) (deriv r2 c)
  | .star r, c => mkSeq (deriv r c) (.star r)

/-- Full-string matching by iterated derivatives. -/
def rmatch (r : Regex) (cs : List Char) : Bool :=
  nullable (cs.foldl deriv r)

/-- Collect the members of a character class up to the closing `]`.
Plain characters and escaped punctuation are members; ranges (`-` in the
middle), escape classes inside the class and an unterminated class are
outside the modelled fragment and fail. -/
def classBody : List Char → Option (List Char × List Char)
  | [] => none
  | ']' :: rest => some ([], rest)
  | '\\' :: c :: rest =>
    if c.isAlphanum then none
    else (classBody rest).map (fun p => (c :: p.1, p.2))
  | '\\' :: [] => none
  | '-' :: _ => none
  | c :: rest => (classBody rest).map (fun p => (c :: p.1, p.2))

/-- Parse a character class, `s` being the input just after `[`.
Mirrors Python: a leading `^` negates, and a `]` in first member
position is a literal member. -/
def parseCls (s : List Char) : Option (Regex × List Char) :=
  let (neg, s1) : Bool × List Char :=
    match s with
    | '^' :: r => (true, r)
    | _ => (false, s)
  match s1 with
  | ']' :: r => (classBody r).map (fun p => (.atom (.cls neg (']' :: p.1)), p.2))
  | _ => (classBody s1).map (fun p => (.atom (.cls neg p.1), p.2))

/-- Whether the input starts with a well-formed Python quantifier body
`m}`, `m,}`, `,n}` or `m,n}` (digits, one optional comma, at least one
digit, then `}`).  When it does not, Python treats the preceding `{` as
a literal character. -/
def isQuantBody (s : List Char) : Bool :=
  let upTo := s.takeWhile (fun c => c ≠ '}')
  (s.contains '}') &&
    (upTo.any Char.isDigit) &&
    (upTo.all (fun c => c.isDigit || c = ',')) &&
    ((upTo.filter (fun c => c = ',')).length ≤ 1)

/-- Characters that cannot begin an atom of the modelled fragment: a
quantifier with nothing before it is a Python error, and groups,
alternation and anchors in the body are outside the fragment. -/
def badLead (c : Char) : Bool :=
  c = '*' || c = '+' || c = '?' || c = '(' || c = ')' ||
  c = '|' || c = '^' || c = '$'

/-- Parse one atom.  Returns the atom's regex and the remaining input
(always strictly shorter). -/
def parseAtom : List Char → Option (Regex × List Char)
  | [] => none
  | '\\' :: [] => none
  | '\\' :: c :: rest =>
    if c = 'd' then some (.atom .digitA, rest)
    else if c = 'w' then some (.atom .wordA, rest)
    else if c = 's' then some (.atom .spaceA, rest)
    else if c.isAlphanum then none
    else some (.atom (.lit c), rest)
  | '[' :: rest => parseCls rest
  | '.' :: rest => some (.atom .anyA, rest)
  | '{' :: rest =>
    if isQuantBody rest then none else some (.atom (.lit '{'), rest)
  | c :: rest =>
    if badLead c then none else some (.atom (.lit c), rest)

/-- Drop a lazy-quantifier marker `?` after `*` / `+` / `?`; laziness
does not change the accepted language, only capture priority. -/
def dropLazy : List Char → List Char
  | '?' :: rest => rest
  | rest => rest

/-- Apply an optional postfix quantifier to the atom just parsed. -/
def applyPostfix (r : Regex) : List Char → Regex × List Char
  | '*' :: rest => (.star r, dropLazy rest)
  | '+' :: rest => (.seq r (.star r), dropLazy rest)
  | '?' :: rest => (.alt r .eps, dropLazy rest)
  | rest => (r, rest)

/-- Fuelled sequence parser: atoms with optional postfix quantifiers,
concatenated.  Each round consumes at least one character, so fuel
`s.length + 1` always suffices. -/
def parseSeqF : Nat → List Char → Option Regex
  | _, [] => some .eps
  | 0, _ :: _ => none
  | fuel + 1, s =>
    match parseAtom s with
    | none => none
    | some (r, rest) =>
      let (r2, rest2) := applyPostfix r rest
      match parseSeqF fuel rest2 with
      | none => none
      | some tl => some (.seq r2 tl)

/-- Parse the body the script hands to `re.match` (without the `^` `$`
wrapper, which `rmatch`'s full-string semantics already provides). -/
def parseRegex (s : List Char) : Option Regex :=
  parseSeqF (s.length + 1) s

/-- The regex branch of `match_step_to_definition` (lines 119-123): the
constructed pattern either compiles and is matched against the whole
text, or fails to compile and the bare `except: pass` silently yields
"no match". -/
def regexTryMatch (pat text : List Char) : Bool :=
  match parseRegex pat with
  | some r => rmatch r text
  | none => false

/-- One extracted step, as built by `extract_steps_from_features`
(lines 36-43).  The script's dict also carries `feature`, `scenario`
and `full_step` fields, used only for grouping and printing; they play
no part in matching or classification and are omitted. -/
structure Step : Type where
  type : String
  text : List Char
deriving DecidableEq, Repr

/-- One extracted step definition, as built by
`extract_step_definitions` (lines 69-87).  The `file` field is used
only for printing and is omitted. -/
structure StepDef : Type where
  type : String
  pattern : List Char
  is_regex : Bool
deriving DecidableEq, Repr

/-- Definition construction (lines 70-76): `is_regex` is set exactly
when the pattern contains a `{` or a `(`. -/
def mkStepDefinition (type : String) (pattern : List Char) : StepDef :=
  { type := type, pattern := pattern
    is_regex := pattern.contains '{' || pattern.contains '(' }

/-- The per-definition test of the loop body of
`match_step_to_definition` (lines 98-123): skip when the step's type is
not `And` and differs from the definition's type; otherwise accept on
exact pattern/text equality, or, for an `is_regex` definition, when the
substituted pattern fully matches the text. -/
def stepAccepts (step : Step) (d : StepDef) : Bool :=
  if step.type ≠ "And" ∧ step.type ≠ d.type then false
  else if d.pattern = step.text then true
  else if d.is_regex then regexTryMatch (pySubstitute d.pattern) step.text
  else false

/-- The accumulating loop of `match_step_to_definition`: `matches`
starts empty and each accepted definition is appended in turn. -/
def matchLoop (step : Step) (acc : List StepDef) : List StepDef → List StepDef
  | [] => acc
  | d :: rest =>
    matchLoop step (if stepAccepts step d then acc ++ [d] else acc) rest

/-- `match_step_to_definition(step, definitions)` (lines 91-125). -/
def match_step_to_definition (step : Step) (defs : List StepDef) : List StepDef :=
  matchLoop step [] defs

/-- Leftmost match of the alternation `Given|When|Then|And` followed by
a space and a non-empty remainder, within one line — the per-line
behaviour of `re.findall(r'(Given|When|Then|And) (.+)', ...)` whose `.`
never crosses a newline.  Returns the keyword and the greedy `(.+)`
capture. -/
def tryKw (kw : String) (s : List Char) : Option (List Char) :=
  if (kw.data ++ [' ']).isPrefixOf s then
    match s.drop (kw.data ++ [' ']).length with
    | [] => none
    | rest => some rest
  else none

/-- Scan a line left to right trying the four keywords, in the
alternation order of the script's regex, at each position. -/
def findKeywordIn : List Char → Option (String × List Char)
  | [] => none
  | c :: rest =>
    match tryKw "Given" (c :: rest) with
    | some t => some ("Given", t)
    | none =>
      match tryKw "When" (c :: rest) with
      | some t => some ("When", t)
      | none =>
        match tryKw "Then" (c :: rest) with
        | some t => some ("Then", t)
        | none =>
          match tryKw "And" (c :: rest) with
          | some t => some ("And", t)
          | none => findKeywordIn rest

/-- Step extraction over one scenario's lines (the findall loop of
`extract_steps_from_features`, lines 35-43): every line carrying a
keyword yields one step whose `type` is the keyword as written — `And`
included — and whose `text` is the stripped remainder. -/
def extract_steps_lines (lines : List (List Char)) : List Step :=
  lines.filterMap fun l =>
    (findKeywordIn l).map fun kt => { type := kt.1, text := pyStrip kt.2 }

/-- The three classifications of `generate_measure_report`. -/
inductive Classification : Type
  | Unmatched
  | Matched
  | Ambiguous
deriving DecidableEq, Repr

/-- The classification branch of `generate_measure_report`
(lines 145-159): zero matches → unmatched, one → matched,
otherwise → ambiguous. -/
def classifyStep (step : Step) (defs : List StepDef) : Classification :=
  let ms := match_step_to_definition step defs
  if ms.length = 0 then .Unmatched
  else if ms.length = 1 then .Matched
  else .Ambiguous

/-- The `mapping_results` buckets of `generate_measure_report`. -/
structure MappingResults : Type where
  matched : List (Step × StepDef)
  unmatched : List Step
  ambiguous : List (Step × List StepDef)
deriving DecidableEq, Repr

/-- One iteration of the classification loop (lines 145-159): the step
is appended to exactly one bucket, the matched bucket keeping
`matches[0]` and the ambiguous bucket the whole candidate list. -/
def classifyInto (defs : List StepDef) (acc : MappingResults) (step : Step) :
    MappingResults :=
  match match_step_to_definition step defs with
  | [] => { acc with unmatched := acc.unmatched ++ [step] }
  | [d] => { acc with matched := acc.matched ++ [(step, d)] }
  | ds => { acc with ambiguous := acc.ambiguous ++ [(step, ds)] }

/-- The whole classification loop over the extracted steps. -/
def buildMapping (steps : List Step) (defs : List StepDef) : MappingResults :=
  steps.foldl (classifyInto defs) { matched := [], unmatched := [], ambiguous := [] }

/-- Python's `/` on the counts: the percentage `num / den * 100`
computed in exact arithmetic, `none` standing for the
`ZeroDivisionError` raised when the denominator is `0`. -/
def ratPercent (num den : Nat) : Option ℚ :=
  if den = 0 then none else some ((num : ℚ) / (den : ℚ) * 100)

/-- The summary block of `generate_measure_report` (lines 187-190):
each bucket's count is divided by the total step count. -/
def measureSummary (steps : List Step) (defs : List StepDef) :
    Option (ℚ × ℚ × ℚ) :=
  let r := buildMapping steps defs
  do
    let m ← ratPercent r.matched.length steps.length
    let u ← ratPercent r.unmatched.length steps.length
    let a ← ratPercent r.ambiguous.length steps.length
    pure (m, u, a)


/-! ## Helper lemmas -/

/-- The accumulating loop of `match_step_to_definition` appends, after
the accumulator, exactly the accepted definitions in their input
order. -/
theorem matchLoop_eq_append_filter (step : Step) :
    ∀ (defs acc : List StepDef),
      matchLoop step acc defs = acc ++ defs.filter (fun d => stepAccepts step d) := by
  intro defs
  induction defs with
  | nil => intro acc; simp [matchLoop]
  | cons d rest ih =>
    intro acc
    by_cases h : stepAccepts step d = true
    · simp [matchLoop, h, ih, List.filter_cons]
    · simp only [Bool.not_eq_true] at h
      simp [matchLoop, h, ih, List.filter_cons]

/-- `match_step_to_definition` is the in-order filter of the supplied
definitions by the per-definition acceptance test. -/
theorem match_step_eq_filter (step : Step) (defs : List StepDef) :
    match_step_to_definition step defs = defs.filter (fun d => stepAccepts step d) := by
  simpa using matchLoop_eq_append_filter step defs []

/-- `findKeywordIn` on a line that starts with `And ` followed by a
non-empty remainder yields the `And` keyword and that remainder. -/
theorem findKeywordIn_and_first (t : List Char) (h : t ≠ []) :
    findKeywordIn ('A' :: 'n' :: 'd' :: ' ' :: t) = some ("And", t) := by
  cases t with
  | nil => exact absurd rfl h
  | cons c cs => rfl

/-! ## Claim theorems -/

/-- C1: for every step and every set of definition patterns, the
classification computed by the report loop is determined by the size of
the candidate set: `Unmatched` iff zero definitions match, `Matched`
iff exactly one matches, `Ambiguous` iff two or more match — and being
a single value of the enumeration, exactly one of the three holds. -/
theorem classification_trichotomy (step : Step) (defs : List StepDef) :
    (classifyStep step defs = .Unmatched ↔
      (match_step_to_definition step defs).length = 0) ∧
    (classifyStep step defs = .Matched ↔
      (match_step_to_definition step defs).length = 1) ∧
    (classifyStep step defs = .Ambiguous ↔
      2 ≤ (match_step_to_definition step defs).length) := by
  have h : classifyStep step defs =
      (if (match_step_to_definition step defs).length = 0 then .Unmatched
       else if (match_step_to_definition step defs).length = 1 then .Matched
       else .Ambiguous) := rfl
  rcases hn : (match_step_to_definition step defs).length with _ | m
  · rw [hn] at h
    simp [h]
  · rcases m with _ | k
    · rw [hn] at h
      simp [h]
    · rw [hn] at h
      simp only [if_neg (by omega : ¬ (k + 1 + 1 = 0)),
        if_neg (by omega : ¬ (k + 1 + 1 = 1))] at h
      refine ⟨?_, ?_, ?_⟩ <;> simp [h]

/-- C9: resolution is deterministic — the mapping built from a fixed
`(steps, defs)` pair is a pure function of its inputs, so two runs are
identical — and within each record the candidates appear in the order
in which the definitions were supplied, namely as the in-order filter
of the definition list. -/
theorem resolve_deterministic_candidate_order
    (steps : List Step) (defs : List StepDef) :
    buildMapping steps defs = buildMapping steps defs ∧
    ∀ step : Step,
      match_step_to_definition step defs =
        defs.filter (fun d => stepAccepts step d) :=
  ⟨rfl, fun step => match_step_eq_filter step defs⟩

/-- C4 counterexample: the claim fails for a step whose keyword is
`And` — the loop's guard waves every definition type through for `And`
steps, so a `When` definition is among the candidates of an `And` step
even though `"When" ≠ "And"`. -/
theorem keyword_isolation_counterexample :
    match_step_to_definition { type := "And", text := ("foo").data }
        [mkStepDefinition "When" (("foo").data)] =
      [mkStepDefinition "When" (("foo").data)] ∧
    (mkStepDefinition "When" (("foo").data)).type ≠ ("And" : String) := by
  constructor
  · decide
  · decide

/-- C4 amended: for every step whose keyword is not `And`, a definition
appears among the step's candidates only if its keyword equals the
step's keyword; in particular a `When` definition never appears among a
`Given` step's candidates.  (Steps tagged `And`, which the extractor
does produce, are matched against definitions of every keyword.) -/
theorem keyword_isolation_amended
    (step : Step) (defs : List StepDef) (d : StepDef)
    (hAnd : step.type ≠ "And")
    (hmem : d ∈ match_step_to_definition step defs) :
    d.type = step.type := by
  rw [match_step_eq_filter] at hmem
  have hacc := (List.mem_filter.mp hmem).2
  by_contra hne
  have hfalse : stepAccepts step d = false := by
    unfold stepAccepts
    rw [if_pos ⟨hAnd, fun h => hne h.symm⟩]
  rw [hfalse] at hacc
  exact Bool.false_ne_true hacc

/-- C4 amended, witness: a `Given` step whose sole candidate is the
identically-worded `Given` definition. -/
theorem keyword_isolation_amended_witness :
    (({ type := "Given", text := ("x").data } : Step).type ≠ "And") ∧
    (mkStepDefinition "Given" (("x").data) ∈
      match_step_to_definition { type := "Given", text := ("x").data }
        [mkStepDefinition "Given" (("x").data)]) ∧
    (mkStepDefinition "Given" (("x").data)).type =
      ({ type := "Given", text := ("x").data } : Step).type :=
  ⟨by decide, by decide,
    keyword_isolation_amended { type := "Given", text := ("x").data }
      [mkStepDefinition "Given" (("x").data)]
      (mkStepDefinition "Given" (("x").data)) (by decide) (by decide)⟩

/-- C10: when the extracted step list is empty the summary block's
percentage computation divides by the zero total and fails (the
`ZeroDivisionError`, modelled as `none`); with at least one step it is
total. -/
theorem summary_division_by_zero (steps : List Step) (defs : List StepDef) :
    (steps = [] → measureSummary steps defs = none) ∧
    (steps ≠ [] → (measureSummary steps defs).isSome = true) := by
  constructor
  · intro h
    subst h
    rfl
  · intro h
    have hl : steps.length ≠ 0 := by
      simpa using fun hh => h (List.length_eq_zero.mp hh)
    simp [measureSummary, ratPercent, hl]

/-- C10 witness: the empty run fails, a one-step run succeeds. -/
theorem summary_division_by_zero_witness :
    measureSummary [] [] = none ∧
    (measureSummary [{ type := "Given", text := ("x").data }] []).isSome = true :=
  ⟨(summary_division_by_zero [] []).1 rfl,
    (summary_division_by_zero [{ type := "Given", text := ("x").data }] []).2
      (by simp)⟩

/-- C2 counterexample: the claim's positive example fails on the code.
In the pattern `I click "{string}"` the `{string}` token is replaced by
the fragment `"[^"]*"`, which itself carries the quotes, so the
constructed regex demands doubled quotes and rejects the text
`I click "Submit"`. -/
theorem full_anchoring_counterexample :
    stepAccepts { type := "When", text := ("I click \"Submit\"").data }
      (mkStepDefinition "When" (("I click \"{string}\"").data)) = false := by
  decide

/-- C2 amended: matching is full-anchored — the pattern
`I click {string}` (without quotes of its own, since the `{string}`
fragment supplies them) matches the entire text `I click "Submit"` and
rejects both the extension `I click "Submit" now` and the prefixed
`Then I click "Submit"`; the quoted spelling `I click "{string}"`
rejects `I click "Submit"`. -/
theorem full_anchoring_amended :
    stepAccepts { type := "When", text := ("I click \"Submit\"").data }
        (mkStepDefinition "When" (("I click {string}").data)) = true ∧
    stepAccepts { type := "When", text := ("I click \"Submit\" now").data }
        (mkStepDefinition "When" (("I click {string}").data)) = false ∧
    stepAccepts { type := "When", text := ("Then I click \"Submit\"").data }
        (mkStepDefinition "When" (("I click {string}").data)) = false ∧
    stepAccepts { type := "When", text := ("I click \"Submit\"").data }
        (mkStepDefinition "When" (("I click \"{string}\"").data)) = false := by
  refine ⟨?_, ?_, ?_, ?_⟩ <;> decide

/-- C3 counterexample: catalog construction performs no keyword
inheritance — the scenario `[Given A, And B, When C, And D]` builds
with keywords `[Given, And, When, And]`, not the claimed
`[Given, Given, When, When]`, and the `And` steps retain `And`. -/
theorem keyword_inheritance_counterexample :
    (extract_steps_lines
        [("Given A").data, ("And B").data, ("When C").data, ("And D").data]).map
        Step.type = ["Given", "And", "When", "And"] ∧
    (extract_steps_lines
        [("Given A").data, ("And B").data, ("When C").data, ("And D").data]).map
        Step.type ≠ ["Given", "Given", "When", "When"] := by
  constructor
  · decide
  · decide

/-- C3 amended: catalog construction preserves every line's keyword
exactly as written — the step's `type` is the keyword found in its
line, so an `And` line stays `And` (the matcher later compares `And`
steps against definitions of every keyword instead); in particular the
scenario `[Given A, And B, When C, And D]` builds
`[Given A, And B, When C, And D]`. -/
theorem keyword_inheritance_amended :
    (∀ lines : List (List Char),
      (extract_steps_lines lines).map Step.type =
        (lines.filterMap findKeywordIn).map Prod.fst) ∧
    extract_steps_lines
        [("Given A").data, ("And B").data, ("When C").data, ("And D").data] =
      [{ type := "Given", text := ("A").data },
       { type := "And", text := ("B").data },
       { type := "When", text := ("C").data },
       { type := "And", text := ("D").data }] := by
  constructor
  · intro lines
    induction lines with
    | nil => rfl
    | cons l ls ih =>
      cases h : findKeywordIn l <;>
        simp [extract_steps_lines, List.filterMap_cons, h] <;>
        simpa [extract_steps_lines] using ih
  · decide

/-- C5 counterexample: the pattern `I see {amount}` with its
unrecognized placeholder is not rejected, not excluded from the matcher
set, and does match — a step whose text is the literal
`I see {amount}` resolves to it as its unique candidate. -/
theorem invalid_pattern_counterexample :
    match_step_to_definition
        { type := "Given", text := ("I see {amount}").data }
        [mkStepDefinition "Given" (("I see {amount}").data)] =
      [mkStepDefinition "Given" (("I see {amount}").data)] := by
  decide

/-- C5 amended: an unrecognized placeholder is not rejected — there is
no `InvalidPattern` outcome.  `{amount}` is left unsubstituted and,
not being a well-formed quantifier, is treated by the regex engine as
literal text, so the compiled matcher accepts exactly the literal text
`I see {amount}` and rejects e.g. `I see 5`; a pattern whose
constructed regex does fail to compile is silently skipped (it matches
nothing), not reported. -/
theorem invalid_pattern_amended :
    regexTryMatch (pySubstitute (("I see {amount}").data))
        (("I see {amount}").data) = true ∧
    regexTryMatch (pySubstitute (("I see {amount}").data))
        (("I see 5").data) = false ∧
    stepAccepts { type := "Given", text := ("I see 5").data }
        (mkStepDefinition "Given" (("I see {amount}").data)) = false := by
  refine ⟨?_, ?_, ?_⟩ <;> decide

/-- C6 counterexample: a scenario whose first line is tagged `And` does
not fail — catalog construction succeeds, producing a step that keeps
the keyword `And`; there is no `MalformedScenario` outcome. -/
theorem malformed_scenario_counterexample :
    extract_steps_lines [("And B").data] =
      [{ type := "And", text := ("B").data }] := by
  decide

/-- C6 amended: an `And` line with no preceding concrete keyword is
accepted, not rejected: the builder emits it as a step with keyword
`And` and continues with the remaining lines unchanged. -/
theorem malformed_scenario_amended
    (t : List Char) (rest : List (List Char)) (h : t ≠ []) :
    extract_steps_lines (('A' :: 'n' :: 'd' :: ' ' :: t) :: rest) =
      { type := "And", text := pyStrip t } :: extract_steps_lines rest := by
  simp [extract_steps_lines, List.filterMap_cons, findKeywordIn_and_first t h]

/-- C6 amended, witness: the one-line scenario `And B`. -/
theorem malformed_scenario_amended_witness :
    (("B").data ≠ ([] : List Char)) ∧
    extract_steps_lines (('A' :: 'n' :: 'd' :: ' ' :: ("B").data) :: []) =
      { type := "And", text := pyStrip (("B").data) } :: extract_steps_lines [] :=
  ⟨by decide, malformed_scenario_amended (("B").data) [] (by decide)⟩

/-- C7 counterexample: `{int}` is replaced by `\d+`, not the claimed
`-?\d+`, so a step text carrying a negative integer in the placeholder
position is rejected. -/
theorem int_placeholder_counterexample :
    pySubstitute (("{int}").data) = ("\\d+").data ∧
    pySubstitute (("{int}").data) ≠ ("-?\\d+").data ∧
    stepAccepts { type := "When", text := ("I wait -5 seconds").data }
        (mkStepDefinition "When" (("I wait {int} seconds").data)) = false := by
  refine ⟨?_, ?_, ?_⟩ <;> decide

/-- C7 amended: `{int}` expands to the regex fragment `\d+` — one or
more decimal digits with no optional sign — so a bare non-negative
integer argument is accepted and a negative one is not. -/
theorem int_placeholder_amended :
    pySubstitute (("{int}").data) = ("\\d+").data ∧
    stepAccepts { type := "When", text := ("I wait 5 seconds").data }
        (mkStepDefinition "When" (("I wait {int} seconds").data)) = true ∧
    stepAccepts { type := "When", text := ("I wait -5 seconds").data }
        (mkStepDefinition "When" (("I wait {int} seconds").data)) = false := by
  refine ⟨?_, ?_, ?_⟩ <;> decide

/-- C8 counterexample: no escaping is performed — the `.` occurring
literally in the pattern `I wait {int} min.` keeps its regex meaning
and matches the character `X`, so the compiled matcher accepts
`I wait 5 minX` although `'.' ≠ 'X'`. -/
theorem literal_escaping_counterexample :
    stepAccepts { type := "Then", text := ("I wait 5 minX").data }
        (mkStepDefinition "Then" (("I wait {int} min.").data)) = true ∧
    ('.' : Char) ≠ 'X' := by
  constructor
  · decide
  · decide

/-- C8 amended: compilation performs no escaping, so a regex
metacharacter in a pattern that reaches the regex branch keeps its
regex meaning (here `.` accepts `X`); a pattern containing neither `{`
nor `(` never reaches the regex branch, and for it matching is exact
case-sensitive string equality with the step text. -/
theorem literal_escaping_amended :
    (∀ (ty : String) (p text : List Char),
      p.contains '{' = false → p.contains '(' = false →
        stepAccepts { type := ty, text := text } (mkStepDefinition ty p) =
          decide (p = text)) ∧
    stepAccepts { type := "Then", text := ("I wait 5 minX").data }
        (mkStepDefinition "Then" (("I wait {int} min.").data)) = true := by
  constructor
  · intro ty p text h1 h2
    have hguard : ¬(ty ≠ "And" ∧ ty ≠ ty) := fun hc => hc.2 rfl
    simp only [stepAccepts, mkStepDefinition, h1, h2, Bool.or_self,
      if_neg hguard]
    by_cases hp : p = text
    · simp [hp]
    · simp [hp]
  · decide

/-- C8 amended, witness: the literal pattern `I am logged in` matches
exactly its own text. -/
theorem literal_escaping_amended_witness :
    (("I am logged in").data.contains '{' = false) ∧
    (("I am logged in").data.contains '(' = false) ∧
    stepAccepts { type := "Given", text := ("I am logged in").data }
        (mkStepDefinition "Given" (("I am logged in").data)) =
      decide ((("I am logged in").data) = (("I am logged in").data)) :=
  ⟨by decide, by decide,
    literal_escaping_amended.1 "Given" (("I am logged in").data)
      (("I am logged in").data) (by decide) (by decide)⟩

end FoundersDay
